import Mathlib

/-!
Shallow embedding of the twitter-scraper backend (Flask + Playwright + SQLAlchemy)
and proofs about it.

Source files embedded:
* `backend/main.py` — the scheduler: a `ThreadPoolExecutor(max_workers=1)`, a global
  `scrape_lock`, `scrape_account_threadsafe` (crawl + 60 s sleep in `finally` while the
  lock is held), `scrape_accounts_sequentially` (recursive staggering with a 60 s
  interval trigger) and `auto_fetch_all` (cycle start).
* `backend/scraper/service.py` — `scrape_tweets` (credential loading and
  normalization, navigation with one retry, login/challenge detection with HTML and
  screenshot dumps, selector wait, scroll/collect loop with an in-fetch seen-set)
  and `fetch_and_store_tweets` (ingestion against the store).
* `backend/crud/tweets.py`, `backend/crud/accounts.py`, `backend/models.py` — the
  store operations `get_account`, `create_account`, `tweet_exists`, `create_tweet`,
  `update_read_status` over `Account` and `Tweet` rows.

External effects (file system, Playwright session, wall clock) are modelled as
explicit data: JSON values, an environment record describing what the page yields,
an event trace for writes/closes, and natural-number times.
-/

namespace Scraper

/-- JSON values, as produced by `json.load` in Python: the credential file parses
into one of these. Numbers are collapsed to `Int` (the credential code never looks
at numbers). -/
inductive Json where
  | null : Json
  | bool (b : Bool) : Json
  | num (n : Int) : Json
  | str (s : String) : Json
  | arr (elems : List Json) : Json
  | obj (fields : List (String × Json)) : Json

/-- The crawl failure taxonomy of `scrape_tweets` (all raised as `RuntimeError` in
the source; distinguished here by the branch that raises them) plus the navigation
timeout that propagates when the single retry also times out. -/
inductive ScrapeError where
  | credentialsMissing : ScrapeError
  | credentialsMalformed : ScrapeError
  | authChallenge : ScrapeError
  | noContentFound : ScrapeError
  | navigationTimeout : ScrapeError
deriving DecidableEq

/-- `key in dict` for the parsed JSON object, as used by `"cookies" not in data`. -/
def hasKey (fields : List (String × Json)) (key : String) : Bool :=
  fields.any (fun kv => kv.1 == key)

/-- Embedding of `service.py` lines 30–39: after `json.load`, a bare list is wrapped
into an object carrying the list under the key `cookies` plus an empty `origins`
list, and written back (`.ok (d, true)`: `d` is the new file content); a dict with a
`cookies` key is kept, the file untouched (`.ok (d, false)`); anything else raises
the invalid-format `RuntimeError`. -/
def normalizeAuth : Json → Except ScrapeError (Json × Bool)
  | .arr elems => .ok (.obj [("cookies", .arr elems), ("origins", .arr [])], true)
  | .obj fields =>
      if hasKey fields "cookies" then .ok (.obj fields, false)
      else .error .credentialsMalformed
  | _ => .error .credentialsMalformed

/-! ### Scheduler timing model (`main.py`)

`executor = ThreadPoolExecutor(max_workers=1)` runs submitted crawls one at a time
in FIFO submission order.  `scrape_account_threadsafe` takes `scrape_lock`, does the
crawl work (`fetch_and_store_tweets`), and in `finally` — still inside the
`with scrape_lock` block — sleeps 60 s.  Since the single worker is busy from the
moment a crawl starts until the sleep ends, the worker becomes free for the next
queued job only `workDur + 60` after the crawl started. -/

/-- The 60 s `time.sleep(60)` in the `finally` of `scrape_account_threadsafe`. -/
def cooldownSeconds : Nat := 60

/-- One submission to the executor: when it was submitted and how long its
extraction/ingestion work (the `try` body) takes. -/
structure CrawlJob where
  submitTime : Nat
  workDur : Nat

/-- Timed semantics of the size-one pool running `scrape_account_threadsafe`:
given the time the worker becomes free and the FIFO queue of submitted jobs,
returns each job's work interval `(start, workEnd)`. A job starts when both it has
been submitted and the worker is free; the worker is then occupied until
`workEnd + cooldownSeconds` (the crawl plus the sleep under the lock). -/
def runSerial (freeAt : Nat) : List CrawlJob → List (Nat × Nat)
  | [] => []
  | j :: rest =>
      let start := max j.submitTime freeAt
      let workEnd := start + j.workDur
      (start, workEnd) :: runSerial (workEnd + cooldownSeconds) rest

/-! ### Stagger schedule (`main.py` lines 100–128)

`auto_fetch_all` submits `usernames[0]` to the executor immediately, then calls
`scrape_accounts_sequentially(usernames, index=1)`, which — when invoked at time
`t` — submits `usernames[index]` at `t` and schedules
`scrape_accounts_sequentially(usernames, index+1)` on a 60 s interval trigger,
whose first firing is `t + 60`.  The functions below compute the cycle-relative
offset of each account's **first** submission (the interval triggers also re-fire
every 60 s afterwards; only first firings are modelled). -/

/-- First-submission offsets produced by `scrape_accounts_sequentially(usernames, index)`
when it runs at cycle-relative time `t`, for `n = len(usernames)`:
submit account `index` now, then the next index one cooldown later. -/
def scrape_accounts_sequentially (cooldown n index t : Nat) : List (Nat × Nat) :=
  if _h : n ≤ index then []
  else (index, t) :: scrape_accounts_sequentially cooldown n (index + 1) (t + cooldown)
termination_by n - index
decreasing_by omega

/-- First-submission offsets of one cycle of `auto_fetch_all` over `n` accounts:
nothing for an empty account list; otherwise account `0` at offset `0`
(`executor.submit` directly) and then `scrape_accounts_sequentially(usernames, 1)`
invoked synchronously, i.e. also at offset `0`. -/
def auto_fetch_all (cooldown n : Nat) : List (Nat × Nat) :=
  if n = 0 then [] else (0, 0) :: scrape_accounts_sequentially cooldown n 1 0

/-! ### The store (`models.py`, `crud/accounts.py`, `crud/tweets.py`)

The SQLite tables are modelled as lists of rows in insertion order; the
autoincrement primary keys are modelled by explicit `next…Id` counters. -/

/-- An `accounts` row (`models.py`): integer primary key and unique username. -/
structure Account where
  id : Nat
  username : String
deriving DecidableEq

/-- A `tweets` row (`models.py`): primary key, owning account id, content text,
timestamp (opaque here, as an `Int`) and the read flag (defaults to `False`). -/
structure Tweet where
  id : Nat
  accountId : Nat
  content : String
  timestamp : Int
  read : Bool
deriving DecidableEq

/-- The relational store: both tables plus the next autoincrement ids. -/
structure DB where
  accounts : List Account
  tweets : List Tweet
  nextAccountId : Nat
  nextTweetId : Nat
deriving DecidableEq

/-- `crud/accounts.py`: `get_account` — first account row with the given username. -/
def get_account (db : DB) (username : String) : Option Account :=
  db.accounts.find? (fun a => a.username == username)

/-- `crud/accounts.py`: `create_account` — insert a new account row and return it. -/
def create_account (db : DB) (username : String) : DB × Account :=
  let a : Account := ⟨db.nextAccountId, username⟩
  ({ db with accounts := db.accounts ++ [a], nextAccountId := db.nextAccountId + 1 }, a)

/-- `crud/tweets.py`: `tweet_exists` — is there a tweet row with this
`(account_id, content)` pair? -/
def tweet_exists (db : DB) (account : Account) (content : String) : Bool :=
  db.tweets.any (fun t => t.accountId == account.id && t.content == content)

/-- `crud/tweets.py`: `create_tweet` — insert a tweet row for the account with the
given content and timestamp, unread. -/
def create_tweet (db : DB) (account : Account) (content : String) (timestamp : Int) : DB :=
  { db with
      tweets := db.tweets ++ [⟨db.nextTweetId, account.id, content, timestamp, false⟩],
      nextTweetId := db.nextTweetId + 1 }

/-- `service.py` line 151: `account = get_account(db, username) or create_account(db,
username)` — resolve the account, creating it on first sight. -/
def resolveAccount (db : DB) (username : String) : DB × Account :=
  match get_account db username with
  | some a => (db, a)
  | none => create_account db username

/-- `service.py` lines 152–155, one iteration: reconcile a single batch item —
skip it if a row with the `(account, content)` pair exists, otherwise persist it
and count it as new. -/
def ingestStep (account : Account) (st : DB × Nat) (item : String × Int) : DB × Nat :=
  if tweet_exists st.1 account item.1 then st
  else (create_tweet st.1 account item.1 item.2, st.2 + 1)

/-- The ingestion part of `service.py`'s `fetch_and_store_tweets`, with the batch
returned by `scrape_tweets` passed in as `(content, timestamp)` pairs: resolve the
account by username (creating it if absent), then for each batch item in order,
persist it and count it if no row with that `(account, content)` exists yet.
Returns the updated store and the count of newly persisted items. -/
def fetch_and_store_tweets (db : DB) (username : String) (batch : List (String × Int)) :
    DB × Nat :=
  let resolved := resolveAccount db username
  batch.foldl (ingestStep resolved.2) (resolved.1, 0)

/-- Number of tweet rows carrying a given `(account_id, content)` pair; the store
invariant is that this never exceeds one. -/
def countPair (db : DB) (accountId : Nat) (content : String) : Nat :=
  (db.tweets.filter (fun t => t.accountId == accountId && t.content == content)).length

/-- `crud/tweets.py`: the in-place mutation done by `update_read_status` on the
first row matching the id (`.first()` on the primary key). -/
def setReadById (tweetId : Nat) (read : Bool) : List Tweet → List Tweet
  | [] => []
  | t :: rest =>
      if t.id == tweetId then { t with read := read } :: rest
      else t :: setReadById tweetId read rest

/-- `crud/tweets.py`: `update_read_status` — look the tweet up by id; if absent,
return `None` and leave the store untouched; otherwise set its read flag, commit,
and return the refreshed row. -/
def update_read_status (db : DB) (tweetId : Nat) (read : Bool) : Option Tweet × DB :=
  match db.tweets.find? (fun t => t.id == tweetId) with
  | none => (none, db)
  | some t =>
      (some { t with read := read }, { db with tweets := setReadById tweetId read db.tweets })

/-- A sample store with one account and two tweets, used to evaluate the store
operations on concrete inputs. -/
def sampleDB : DB :=
  ⟨[⟨1, "alice"⟩], [⟨1, 1, "x", 0, false⟩, ⟨2, 1, "y", 0, true⟩], 2, 3⟩

/-- The first tweet row of `sampleDB`. -/
def sampleTweet : Tweet := ⟨1, 1, "x", 0, false⟩

/-! ### The feed extraction pipeline (`service.py`, `scrape_tweets`)

The Playwright session is modelled by an environment describing what the page
yields at every step, and by a trace of the externally visible effects (file
writes, browser close, driver shutdown).  String helpers used by the source
(`in`, `.strip()`, `.replace()`) are embedded as executable functions on
character lists. -/

/-- Python's `pat in s` substring test. -/
def containsSubstr (s pat : String) : Bool :=
  (List.range (s.data.length + 1)).any (fun i => pat.data.isPrefixOf (s.data.drop i))

/-- Drop leading whitespace characters. -/
def dropLeadingWs : List Char → List Char
  | [] => []
  | c :: rest => if c.isWhitespace then dropLeadingWs rest else c :: rest

/-- Python's `s.strip()`: remove leading and trailing whitespace. -/
def pstrip (s : String) : String :=
  ⟨((dropLeadingWs ((dropLeadingWs s.data).reverse)).reverse)⟩

/-- Left-to-right, non-overlapping replacement of `pat` by `rep`, with enough fuel
to scan the whole list (`fuel` starts at the list length, and a non-empty match
consumes at least one character). -/
def replaceAux (pat rep : List Char) : Nat → List Char → List Char
  | _, [] => []
  | 0, l => l
  | fuel + 1, c :: rest =>
      if pat.isPrefixOf (c :: rest) && !pat.isEmpty then
        rep ++ replaceAux pat rep fuel ((c :: rest).drop pat.length)
      else c :: replaceAux pat rep fuel rest

/-- Python's `s.replace(pat, rep)` for a non-empty pattern. -/
def preplace (s pat rep : String) : String :=
  ⟨replaceAux pat.data rep.data s.data.length s.data⟩

/-- One tweet container (`article[data-testid='tweet']`) as the extraction loop
observes it: the inner text of the primary text region
(`[data-testid='tweetText']`), of the fallback region (`div[lang]`), and — when
a `<time>` element is present — its `datetime` attribute (itself optional). -/
structure Block where
  tweetText : Option String
  langText : Option String
  timeAttr : Option (Option String)
deriving DecidableEq

/-- One iteration of the pagination loop as the page yields it: the containers
visible when the loop queries them, and the page height measured after the
scroll of that iteration. -/
structure Round where
  blocks : List Block
  heightAfterScroll : Nat
deriving DecidableEq

/-- `service.py` lines 102–124, one container: take the primary text region,
falling back to `div[lang]` when it is absent; require a `<time>` element; read
its `datetime` attribute and parse it (`datetime.fromisoformat` after replacing
`"Z"` with `"+00:00"`, modelled by the environment's `parseTs`).  Every failure
mode — missing text region, missing time element, missing attribute (Python
raises on `None.replace`), unparsable timestamp — is swallowed by the
`except: continue` and yields no item. -/
def extractBlock (parseTs : String → Option Int) (b : Block) : Option (String × Int) :=
  match b.tweetText.or b.langText, b.timeAttr with
  | some txt, some (some ts) =>
      match parseTs (preplace ts "Z" "+00:00") with
      | some t => some (pstrip txt, t)
      | none => none
  | _, _ => none

/-- `service.py` lines 112–119 for one container: if extraction produced a
`(content, timestamp)` pair and the content was not seen in this fetch, record
it and mark it seen. The state is the collected list plus the seen set
(a Python `set`, modelled as the list of seen contents). -/
def collectOne (parseTs : String → Option Int) (b : Block)
    (st : List (String × Int) × List String) : List (String × Int) × List String :=
  match extractBlock parseTs b with
  | some ct => if ct.1 ∈ st.2 then st else (st.1 ++ [ct], st.2 ++ [ct.1])
  | none => st

/-- The `for block in tweet_blocks` loop (`service.py` lines 102–124): process
containers in order, breaking out as soon as the collected count reaches the
requested maximum. -/
def collectBlocks (parseTs : String → Option Int) (maxTweets : Nat) :
    List Block → List (String × Int) × List String → List (String × Int) × List String
  | [], st => st
  | b :: rest, st =>
      let st' := collectOne parseTs b st
      if maxTweets ≤ st'.1.length then st'
      else collectBlocks parseTs maxTweets rest st'

/-- The `while len(tweets) < max_tweets` pagination loop (`service.py` lines
100–136): scan the currently visible containers, stop when the target count is
reached, otherwise scroll and compare the page height before/after — an
unchanged height ends the loop.  `fuel` bounds how many iterations are
observed; `none` means the loop was still running after `fuel` iterations. -/
def scrapeLoop (parseTs : String → Option Int) (rounds : Nat → Round) (maxTweets : Nat) :
    Nat → Nat → Nat → List (String × Int) × List String → Option (List (String × Int))
  | 0, _, _, _ => none
  | fuel + 1, i, lastHeight, st =>
      if maxTweets ≤ st.1.length then some st.1
      else
        let st' := collectBlocks parseTs maxTweets (rounds i).blocks st
        if maxTweets ≤ st'.1.length then some st'.1
        else if (rounds i).heightAfterScroll = lastHeight then some st'.1
        else scrapeLoop parseTs rounds maxTweets fuel (i + 1) (rounds i).heightAfterScroll st'

/-- The externally visible effects of one `scrape_tweets` call, in order:
rewriting the credential file, opening the Playwright session (launch +
context + page), writing an HTML snapshot or a full-page screenshot,
`browser.close()`, and the shutdown performed by the exit of
`async with async_playwright()` (which stops the driver and with it every
browser it launched, even when an exception is propagating). -/
inductive Ev where
  | writeAuthFile : Ev
  | openSession : Ev
  | writeHtml (path : String) : Ev
  | writeScreenshot (path : String) : Ev
  | closeBrowser : Ev
  | stopPlaywright : Ev
deriving DecidableEq

/-- Everything the outside world feeds into one `scrape_tweets` call: whether
`auth.json` exists and what it parses to, whether the first `page.goto` and the
retry succeed, the resolved URL after navigation, whether the tweet-container
selector appears within its timeout, the initial page height, the containers
and heights of each pagination iteration, the timestamp parser
(`datetime.fromisoformat`), and the iteration bound. -/
structure ScrapeEnv where
  authFileExists : Bool
  authFileData : Json
  nav1Ok : Bool
  nav2Ok : Bool
  finalUrl : String
  tweetSelectorOk : Bool
  initialHeight : Nat
  rounds : Nat → Round
  parseTs : String → Option Int
  loopFuel : Nat

/-- Embedding of `service.py`'s `scrape_tweets`: credential checks, session
open, navigation with one retry, login/challenge detection with diagnostic
dumps, selector wait with diagnostic dumps, the pagination loop, and the
session shutdown.  Returns the outcome paired with the effect trace, or `none`
when the pagination loop exceeded the observation bound. -/
def scrape_tweets (env : ScrapeEnv) (username : String) (maxTweets : Nat) :
    Option (Except ScrapeError (List (String × Int)) × List Ev) :=
  if env.authFileExists = false then some (.error .credentialsMissing, [])
  else
    match normalizeAuth env.authFileData with
    | .error e => some (.error e, [])
    | .ok (_, rewritten) =>
        let evs := (if rewritten then [Ev.writeAuthFile] else []) ++ [Ev.openSession]
        if env.nav1Ok = false ∧ env.nav2Ok = false then
          some (.error .navigationTimeout, evs ++ [Ev.stopPlaywright])
        else if containsSubstr env.finalUrl "login" || containsSubstr env.finalUrl "challenge" then
          some (.error .authChallenge,
            evs ++ [Ev.writeHtml (username ++ "_redirect.html"),
                    Ev.writeScreenshot (username ++ "_redirect.png"),
                    Ev.closeBrowser, Ev.stopPlaywright])
        else if env.tweetSelectorOk = false then
          some (.error .noContentFound,
            evs ++ [Ev.writeHtml (username ++ "_no_tweets.html"),
                    Ev.writeScreenshot (username ++ "_no_tweets.png"),
                    Ev.closeBrowser, Ev.stopPlaywright])
        else
          match scrapeLoop env.parseTs env.rounds maxTweets env.loopFuel 0
              env.initialHeight ([], []) with
          | none => none
          | some collected => some (.ok collected, evs ++ [Ev.closeBrowser, Ev.stopPlaywright])

/-- The HTML snapshot writes of a trace. -/
def htmlWrites (evs : List Ev) : List Ev :=
  evs.filter (fun e => match e with | .writeHtml _ => true | _ => false)

/-- The screenshot writes of a trace. -/
def screenshotWrites (evs : List Ev) : List Ev :=
  evs.filter (fun e => match e with | .writeScreenshot _ => true | _ => false)

/-- The session resources are released in a trace: either an explicit
`browser.close()` or the `async with async_playwright()` exit, which stops the
driver and closes every browser it launched. -/
def sessionReleased (evs : List Ev) : Prop :=
  Ev.closeBrowser ∈ evs ∨ Ev.stopPlaywright ∈ evs

/-- The seen-set faithfully mirrors the collected contents and holds no
duplicates. -/
def InvSeen (st : List (String × Int) × List String) : Prop :=
  st.2 = st.1.map Prod.fst ∧ st.2.Nodup

/-- A pagination iteration whose containers repeat the same text. -/
def sampleRound : Round :=
  ⟨[⟨some "hello", none, some (some "2024")⟩,
    ⟨some "hello", none, some (some "2024")⟩,
    ⟨some "world", none, some (some "2024")⟩], 100⟩

/-- A healthy environment: credentials fine, navigation fine, no challenge,
containers present, and the page stalls after the first iteration. -/
def sampleEnv : ScrapeEnv :=
  { authFileExists := true
    authFileData := .obj [("cookies", .arr [])]
    nav1Ok := true
    nav2Ok := true
    finalUrl := "https://x.com/search"
    tweetSelectorOk := true
    initialHeight := 100
    rounds := fun _ => sampleRound
    parseTs := fun _ => some 0
    loopFuel := 5 }

/-- The same environment, but the resolved URL is a login redirect. -/
def loginEnv : ScrapeEnv :=
  { sampleEnv with finalUrl := "https://x.com/login?redirect=1" }

/-- The effect trace of the login/challenge branch: the optional credential-file
rewrite, the session open, then one HTML snapshot and one screenshot named by
the username, the explicit `browser.close()`, and the driver shutdown. -/
def authChallengeEvents (rewritten : Bool) (username : String) : List Ev :=
  ((if rewritten then [Ev.writeAuthFile] else []) ++ [Ev.openSession]) ++
    [Ev.writeHtml (username ++ "_redirect.html"),
     Ev.writeScreenshot (username ++ "_redirect.png"),
     Ev.closeBrowser, Ev.stopPlaywright]

end Scraper

namespace Scraper

/-! ### Lemmas about the scheduler model -/

theorem runSerial_start_ge (jobs : List CrawlJob) (freeAt : Nat) :
    ∀ p ∈ runSerial freeAt jobs, freeAt ≤ p.1 := by
  induction jobs generalizing freeAt with
  | nil => intro p hp; simp [runSerial] at hp
  | cons j rest ih =>
      intro p hp
      simp only [runSerial, List.mem_cons] at hp
      rcases hp with rfl | hp
      · exact Nat.le_max_right _ _
      · have := ih (max j.submitTime freeAt + j.workDur + cooldownSeconds) p hp
        omega

/-- C1: at most one crawl executes at any instant.  Every crawl submission
(periodic cycle or manual trigger) goes through the single
`ThreadPoolExecutor(max_workers=1)` running `scrape_account_threadsafe` under the
global lock, so in the timed semantics `runSerial` the work intervals of any two
submitted crawls are disjoint: the earlier one's work ends strictly before the
later one's starts. -/
theorem crawl_executions_disjoint (freeAt : Nat) (jobs : List CrawlJob) :
    (runSerial freeAt jobs).Pairwise (fun a b => a.2 < b.1) := by
  induction jobs generalizing freeAt with
  | nil => simp [runSerial]
  | cons j rest ih =>
      simp only [runSerial, List.pairwise_cons]
      refine ⟨?_, ih _⟩
      intro p hp
      have h := runSerial_start_ge rest
        (max j.submitTime freeAt + j.workDur + cooldownSeconds) p hp
      simp only [cooldownSeconds] at h
      omega

/-- C4: minimum inter-crawl gap.  In the timed semantics `runSerial`, for every two
consecutive crawl executions the start of the second is at least `cooldownSeconds`
(60 s) after the end of the first one's extraction/ingestion work, because the lock
is held for the cool-down sleep after every completion, success or failure. -/
theorem consecutive_crawl_gap (freeAt : Nat) (jobs : List CrawlJob) :
    (runSerial freeAt jobs).Chain' (fun a b => a.2 + cooldownSeconds ≤ b.1) := by
  induction jobs generalizing freeAt with
  | nil => simp [runSerial]
  | cons j rest ih =>
      simp only [runSerial]
      rcases rest with _ | ⟨k, rest⟩
      · simp [runSerial]
      · refine List.Chain'.cons ?_ (ih _)
        simp only [runSerial]
        exact Nat.le_max_right _ _

/-! ### The stagger schedule, settled -/

theorem scrape_accounts_sequentially_closed (cooldown n : Nat) :
    ∀ k index t, n - index = k →
      scrape_accounts_sequentially cooldown n index t =
        (List.range k).map (fun j => (index + j, t + j * cooldown)) := by
  intro k
  induction k with
  | zero =>
      intro index t h
      rw [scrape_accounts_sequentially]
      simp only [List.range_zero, List.map_nil]
      rw [dif_pos (by omega)]
  | succ m ih =>
      intro index t h
      rw [scrape_accounts_sequentially, dif_neg (by omega)]
      rw [ih (index + 1) (t + cooldown) (by omega)]
      rw [List.range_succ_eq_map]
      simp only [List.map_cons, List.map_map]
      refine congrArg₂ _ (by simp) ?_
      refine List.map_congr_left ?_
      intro j _
      simp only [Function.comp_apply, Nat.succ_eq_add_one, Prod.mk.injEq]
      exact ⟨by omega, by ring⟩

/-- C5 counterexample: the claimed stagger offsets are wrong.  For a 3-account
cycle with cooldown 60 s, `auto_fetch_all` submits accounts at cycle-relative
offsets 0 s, 0 s and 60 s — not at 0 s, 60 s and 120 s as the claim states —
because `auto_fetch_all` submits account 0 itself and then synchronously calls
`scrape_accounts_sequentially(usernames, 1)`, which submits account 1 immediately
rather than one cooldown later. -/
theorem stagger_offsets_counterexample :
    auto_fetch_all 60 3 = [(0, 0), (1, 0), (2, 60)] ∧
      auto_fetch_all 60 3 ≠ [(0, 0), (1, 60), (2, 120)] := by
  have h : auto_fetch_all 60 3 = [(0, 0), (1, 0), (2, 60)] := by
    rw [auto_fetch_all, if_neg (by omega),
      scrape_accounts_sequentially_closed 60 3 2 1 0 rfl]
    rfl
  exact ⟨h, by rw [h]; simp⟩

/-- C5 amended: for every cycle over `n` accounts, account 0 is submitted at cycle
start, and each account `k ≥ 1` is first submitted at offset `(k − 1) × cooldown`
after cycle start (so accounts 0 and 1 are both submitted immediately); each
account appears exactly once in the list of first submissions. -/
theorem stagger_offsets_actual (cooldown n : Nat) :
    auto_fetch_all cooldown n =
      (List.range n).map (fun k => (k, if k = 0 then 0 else (k - 1) * cooldown)) := by
  rcases n with _ | m
  · simp [auto_fetch_all]
  · rw [auto_fetch_all, if_neg (by omega),
      scrape_accounts_sequentially_closed cooldown (m + 1) m 1 0 (by omega),
      List.range_succ_eq_map]
    simp only [List.map_cons, List.map_map, if_pos rfl]
    refine congrArg₂ _ rfl ?_
    refine List.map_congr_left ?_
    intro j _
    simp only [Function.comp_apply, Nat.succ_eq_add_one, if_neg (by omega : ¬ j + 1 = 0),
      Prod.mk.injEq]
    exact ⟨by omega, by simp⟩

/-! ### Lemmas about the store and ingestion -/

theorem tweet_exists_create_tweet_of (db : DB) (a' : Account) (c' : String) (ts : Int)
    (a : Account) (c : String) (h : tweet_exists db a c = true) :
    tweet_exists (create_tweet db a' c' ts) a c = true := by
  simp only [tweet_exists, create_tweet, List.any_append, Bool.or_eq_true]
  exact Or.inl h

theorem tweet_exists_create_tweet_self (db : DB) (a : Account) (c : String) (ts : Int) :
    tweet_exists (create_tweet db a c ts) a c = true := by
  simp [tweet_exists, create_tweet, List.any_append]

theorem tweet_exists_ingestStep (a : Account) (st : DB × Nat) (item : String × Int)
    (a' : Account) (c : String) (h : tweet_exists st.1 a' c = true) :
    tweet_exists (ingestStep a st item).1 a' c = true := by
  rw [ingestStep]
  split
  · exact h
  · exact tweet_exists_create_tweet_of _ _ _ _ _ _ h

theorem tweet_exists_foldl (a : Account) (batch : List (String × Int)) :
    ∀ (st : DB × Nat) (a' : Account) (c : String), tweet_exists st.1 a' c = true →
      tweet_exists (batch.foldl (ingestStep a) st).1 a' c = true := by
  induction batch with
  | nil => intro st a' c h; exact h
  | cons item rest ih =>
      intro st a' c h
      exact ih _ _ _ (tweet_exists_ingestStep a st item a' c h)

theorem foldl_ingest_all_exist (a : Account) (batch : List (String × Int)) :
    ∀ (st : DB × Nat), ∀ item ∈ batch,
      tweet_exists (batch.foldl (ingestStep a) st).1 a item.1 = true := by
  induction batch with
  | nil => intro st item h; simp at h
  | cons b rest ih =>
      intro st item h
      rcases List.mem_cons.mp h with rfl | h
      · simp only [List.foldl_cons]
        refine tweet_exists_foldl a rest _ a item.1 ?_
        rw [ingestStep]
        split
        · assumption
        · exact tweet_exists_create_tweet_self _ _ _ _
      · exact ih _ item h

theorem foldl_ingest_noop (a : Account) (batch : List (String × Int)) :
    ∀ (st : DB × Nat), (∀ item ∈ batch, tweet_exists st.1 a item.1 = true) →
      batch.foldl (ingestStep a) st = st := by
  induction batch with
  | nil => intro st _; rfl
  | cons b rest ih =>
      intro st h
      have hb : ingestStep a st b = st := by
        rw [ingestStep, if_pos (h b (List.mem_cons_self b rest))]
      simp only [List.foldl_cons, hb]
      exact ih st (fun item hm => h item (List.mem_cons_of_mem b hm))

theorem foldl_ingest_accounts (a : Account) (batch : List (String × Int)) :
    ∀ (st : DB × Nat), (batch.foldl (ingestStep a) st).1.accounts = st.1.accounts := by
  induction batch with
  | nil => intro st; rfl
  | cons b rest ih =>
      intro st
      rw [List.foldl_cons, ih]
      rw [ingestStep]
      split
      · rfl
      · rfl

theorem get_account_resolve (db : DB) (username : String) :
    get_account (resolveAccount db username).1 username = some (resolveAccount db username).2 := by
  rw [resolveAccount]
  cases hfind : get_account db username with
  | some a => simpa using hfind
  | none =>
      simp only [create_account, get_account, List.find?_append]
      rw [get_account] at hfind
      rw [hfind]
      simp

theorem get_account_after_run (db : DB) (username : String) (batch : List (String × Int)) :
    get_account (fetch_and_store_tweets db username batch).1 username =
      some (resolveAccount db username).2 := by
  rw [fetch_and_store_tweets, get_account]
  rw [show (batch.foldl (ingestStep (resolveAccount db username).2)
        ((resolveAccount db username).1, 0)).1.accounts
      = (resolveAccount db username).1.accounts from foldl_ingest_accounts _ _ _]
  have h := get_account_resolve db username
  rw [get_account] at h
  exact h

theorem countPair_create_tweet (db : DB) (a : Account) (c : String) (ts : Int)
    (accountId : Nat) (content : String) :
    countPair (create_tweet db a c ts) accountId content =
      countPair db accountId content +
        (if a.id == accountId && c == content then 1 else 0) := by
  rcases hb : (a.id == accountId && c == content) with _ | _ <;>
    simp [countPair, create_tweet, List.filter_append, List.filter_singleton, hb]

theorem countPair_eq_zero_of_not_exists (db : DB) (a : Account) (c : String)
    (h : tweet_exists db a c = false) : countPair db a.id c = 0 := by
  simp only [tweet_exists, List.any_eq_false] at h
  simp only [countPair, List.length_eq_zero]
  rw [List.filter_eq_nil_iff]
  intro t ht
  exact h t ht

theorem countPair_foldl_ingest (a : Account) (batch : List (String × Int)) :
    ∀ (st : DB × Nat) (accountId : Nat) (content : String),
      countPair st.1 accountId content ≤ 1 →
      countPair (batch.foldl (ingestStep a) st).1 accountId content ≤ 1 := by
  induction batch with
  | nil => intro st accountId content h; exact h
  | cons b rest ih =>
      intro st accountId content h
      rw [List.foldl_cons]
      refine ih _ accountId content ?_
      rw [ingestStep]
      split
      · exact h
      · rename_i hnot
        rw [Bool.not_eq_true] at hnot
        simp only [countPair_create_tweet]
        split
        · rename_i hmatch
          simp only [Bool.and_eq_true, beq_iff_eq] at hmatch
          obtain ⟨h1, h2⟩ := hmatch
          have h0 := countPair_eq_zero_of_not_exists st.1 a b.1 hnot
          rw [h1, h2] at h0
          omega
        · omega

theorem countPair_resolve (db : DB) (username : String) (accountId : Nat) (content : String) :
    countPair (resolveAccount db username).1 accountId content =
      countPair db accountId content := by
  rw [resolveAccount]
  cases get_account db username with
  | some a => rfl
  | none => simp [create_account, countPair]

/-- C2: ingestion is idempotent per `(account, content)` pair.  If the store
satisfies the uniqueness invariant for a pair before ingestion, it still does
after running `fetch_and_store_tweets` twice on the same batch (each pair is
persisted at most once); and the second run leaves the store unchanged and
returns a new-item count of zero. -/
theorem ingestion_idempotent (db : DB) (username : String) (batch : List (String × Int))
    (accountId : Nat) (content : String)
    (hinv : countPair db accountId content ≤ 1) :
    countPair (fetch_and_store_tweets
        (fetch_and_store_tweets db username batch).1 username batch).1 accountId content ≤ 1 ∧
      fetch_and_store_tweets (fetch_and_store_tweets db username batch).1 username batch =
        ((fetch_and_store_tweets db username batch).1, 0) := by
  have hsecond :
      fetch_and_store_tweets (fetch_and_store_tweets db username batch).1 username batch =
        ((fetch_and_store_tweets db username batch).1, 0) := by
    set db1 := (fetch_and_store_tweets db username batch).1 with hdb1
    have hres : resolveAccount db1 username = (db1, (resolveAccount db username).2) := by
      rw [resolveAccount, hdb1, get_account_after_run]
    rw [fetch_and_store_tweets, hres]
    refine foldl_ingest_noop _ _ _ ?_
    intro item hm
    have := foldl_ingest_all_exist (resolveAccount db username).2 batch
      ((resolveAccount db username).1, 0) item hm
    rw [fetch_and_store_tweets] at hdb1
    rw [hdb1]
    exact this
  refine ⟨?_, hsecond⟩
  rw [hsecond]
  rw [fetch_and_store_tweets]
  refine countPair_foldl_ingest _ _ _ _ _ ?_
  rw [countPair_resolve]
  exact hinv

/-- C2 witness: ingesting the batch `[("hi", 1), ("hi", 2)]` for `"alice"` twice
into the empty store keeps the pair `(0, "hi")` unique, and the second run
returns zero new items. -/
theorem ingestion_idempotent_witness :
    countPair (fetch_and_store_tweets
        (fetch_and_store_tweets ⟨[], [], 0, 0⟩ "alice" [("hi", 1), ("hi", 2)]).1
        "alice" [("hi", 1), ("hi", 2)]).1 0 "hi" ≤ 1 ∧
      fetch_and_store_tweets
          (fetch_and_store_tweets ⟨[], [], 0, 0⟩ "alice" [("hi", 1), ("hi", 2)]).1
          "alice" [("hi", 1), ("hi", 2)] =
        ((fetch_and_store_tweets ⟨[], [], 0, 0⟩ "alice" [("hi", 1), ("hi", 2)]).1, 0) :=
  ingestion_idempotent ⟨[], [], 0, 0⟩ "alice" [("hi", 1), ("hi", 2)] 0 "hi" (by decide)

/-! ### The read-toggle, settled -/

theorem setReadById_eq_map (tweetId : Nat) (flag : Bool) :
    ∀ (l : List Tweet), (l.map Tweet.id).Nodup →
      setReadById tweetId flag l =
        l.map (fun s => if s.id = tweetId then { s with read := flag } else s) := by
  intro l
  induction l with
  | nil => intro _; rfl
  | cons t rest ih =>
      intro hnodup
      rw [List.map_cons, List.nodup_cons] at hnodup
      obtain ⟨hnotmem, hrest⟩ := hnodup
      rw [setReadById, List.map_cons]
      by_cases hid : t.id = tweetId
      · rw [if_pos (by simpa using hid), if_pos hid]
        have hmap : rest.map (fun s => if s.id = tweetId then { s with read := flag } else s)
            = rest.map id := by
          refine List.map_congr_left ?_
          intro s hs
          have : s.id ≠ tweetId := by
            intro hcontra
            exact hnotmem (hid ▸ hcontra ▸ List.mem_map_of_mem Tweet.id hs)
          simp [this]
        rw [hmap, List.map_id]
      · rw [if_neg (by simpa using hid), if_neg hid, ih hrest]

/-- C10: read-toggle atomicity.  For a tweet id absent from the store,
`update_read_status` returns `None` and leaves the store completely unchanged;
for an id present in a store with unique tweet ids, it returns that tweet with
the flag set and changes only that tweet's read flag, leaving its other fields,
all other tweets, and the accounts table unchanged. -/
theorem update_read_status_spec (db : DB) (tweetId : Nat) (flag : Bool) :
    ((∀ t ∈ db.tweets, t.id ≠ tweetId) →
        update_read_status db tweetId flag = (none, db)) ∧
      ((db.tweets.map Tweet.id).Nodup → ∀ t ∈ db.tweets, t.id = tweetId →
        update_read_status db tweetId flag =
          (some { t with read := flag },
           { db with tweets :=
               db.tweets.map (fun s => if s.id = tweetId then { s with read := flag } else s) })) := by
  constructor
  · intro habsent
    rw [update_read_status]
    have hfind : db.tweets.find? (fun t => t.id == tweetId) = none := by
      rw [List.find?_eq_none]
      intro t ht
      simpa using habsent t ht
    rw [hfind]
  · intro hnodup t ht hid
    have hfind : db.tweets.find? (fun s => s.id == tweetId) = some t := by
      cases hf : db.tweets.find? (fun s => s.id == tweetId) with
      | none =>
          rw [List.find?_eq_none] at hf
          exact absurd (by simpa using hid) (hf t ht)
      | some s =>
          have hs := List.mem_of_find?_eq_some hf
          have hps : s.id = tweetId := by simpa using List.find?_some hf
          have : s = t :=
            List.inj_on_of_nodup_map hnodup hs ht (by rw [hps, hid])
          rw [this]
    rw [update_read_status, hfind, setReadById_eq_map tweetId flag db.tweets hnodup]

/-- C10 witness: on the sample store, toggling a missing id (99) returns `None`
and changes nothing, and toggling id 1 flips only that tweet's read flag. -/
theorem update_read_status_witness :
    update_read_status sampleDB 99 true = (none, sampleDB) ∧
      update_read_status sampleDB 1 true =
        (some { sampleTweet with read := true },
         { sampleDB with tweets :=
             sampleDB.tweets.map (fun s => if s.id = 1 then { s with read := true } else s) }) :=
  ⟨(update_read_status_spec sampleDB 99 true).1 (by decide),
   (update_read_status_spec sampleDB 1 true).2 (by decide) sampleTweet (by decide) rfl⟩

/-- C6: credential normalization round-trip.  If the credential file parses as a
bare JSON array, one extraction attempt rewrites the file to
an object holding that array under the key `cookies` plus an empty `origins`
list; parsing that rewritten value on any
later run yields a dict with a `"cookies"` key, so the rewrite branch is not taken
again (the flag is `false`) and the value is kept as is. -/
theorem auth_normalization_roundtrip (elems : List Json) :
    normalizeAuth (.arr elems) =
        .ok (.obj [("cookies", .arr elems), ("origins", .arr [])], true) ∧
      normalizeAuth (.obj [("cookies", .arr elems), ("origins", .arr [])]) =
        .ok (.obj [("cookies", .arr elems), ("origins", .arr [])], false) := by
  constructor
  · rfl
  · simp [normalizeAuth, hasKey]

/-! ### The extraction pipeline, settled -/

theorem collectOne_inv (parseTs : String → Option Int) (b : Block)
    (st : List (String × Int) × List String) (h : InvSeen st) :
    InvSeen (collectOne parseTs b st) := by
  rw [collectOne]
  cases hx : extractBlock parseTs b with
  | none => exact h
  | some ct =>
      show InvSeen (if ct.1 ∈ st.2 then st else (st.1 ++ [ct], st.2 ++ [ct.1]))
      by_cases hm : ct.1 ∈ st.2
      · rw [if_pos hm]; exact h
      · rw [if_neg hm]
        obtain ⟨h1, h2⟩ := h
        refine ⟨by simp [h1], ?_⟩
        rw [List.nodup_append]
        refine ⟨h2, List.nodup_singleton _, ?_⟩
        intro a ha hb
        rw [List.mem_singleton] at hb
        exact hm (hb ▸ ha)

theorem collectBlocks_inv (parseTs : String → Option Int) (maxTweets : Nat) :
    ∀ (blocks : List Block) (st : List (String × Int) × List String),
      InvSeen st → InvSeen (collectBlocks parseTs maxTweets blocks st) := by
  intro blocks
  induction blocks with
  | nil => intro st h; exact h
  | cons b rest ih =>
      intro st h
      simp only [collectBlocks]
      split
      · exact collectOne_inv parseTs b st h
      · exact ih _ (collectOne_inv parseTs b st h)

theorem scrapeLoop_nodup (parseTs : String → Option Int) (rounds : Nat → Round)
    (maxTweets : Nat) :
    ∀ (fuel i lastHeight : Nat) (st : List (String × Int) × List String),
      InvSeen st → ∀ out, scrapeLoop parseTs rounds maxTweets fuel i lastHeight st = some out →
      (out.map Prod.fst).Nodup := by
  intro fuel
  induction fuel with
  | zero =>
      intro i lh st hinv out hout
      simp [scrapeLoop] at hout
  | succ f ih =>
      intro i lh st hinv out hout
      simp only [scrapeLoop] at hout
      split at hout
      · obtain rfl : st.1 = out := by simpa using hout
        exact hinv.1 ▸ hinv.2
      · have hinv' := collectBlocks_inv parseTs maxTweets (rounds i).blocks st hinv
        split at hout
        · obtain rfl : (collectBlocks parseTs maxTweets (rounds i).blocks st).1 = out := by
            simpa using hout
          exact hinv'.1 ▸ hinv'.2
        · split at hout
          · obtain rfl : (collectBlocks parseTs maxTweets (rounds i).blocks st).1 = out := by
              simpa using hout
            exact hinv'.1 ▸ hinv'.2
          · exact ih _ _ _ hinv' out hout

/-- C3: in-fetch deduplication.  For every environment (hence every sequence of
item containers the page yields, including ones repeating the same text), every
username and every maximum item count, whenever `scrape_tweets` returns a batch,
that batch contains each distinct content string at most once. -/
theorem feed_dedup (env : ScrapeEnv) (username : String) (maxTweets : Nat)
    (tweets : List (String × Int)) (evs : List Ev)
    (h : scrape_tweets env username maxTweets = some (.ok tweets, evs)) :
    (tweets.map Prod.fst).Nodup := by
  rw [scrape_tweets] at h
  split at h
  · simp at h
  · split at h
    · simp at h
    · simp only [] at h
      split at h
      · simp at h
      · split at h
        · simp at h
        · split at h
          · simp at h
          · split at h
            · simp at h
            · rename_i out hout
              simp only [Option.some.injEq, Prod.mk.injEq, Except.ok.injEq] at h
              obtain ⟨rfl, rfl⟩ := h
              exact scrapeLoop_nodup env.parseTs env.rounds maxTweets env.loopFuel 0
                env.initialHeight ([], []) ⟨rfl, List.nodup_nil⟩ out hout

/-- C3 witness: on an environment whose page repeats the container text
`"hello"`, the returned batch holds each content once. -/
theorem feed_dedup_witness :
    (([("hello", (0 : Int)), ("world", 0)]).map Prod.fst).Nodup :=
  feed_dedup sampleEnv "user" 5 [("hello", 0), ("world", 0)]
    [Ev.openSession, Ev.closeBrowser, Ev.stopPlaywright] (by rfl)

/-- C8: stall termination.  For every run that reaches the pagination loop, if
the height measured after a scroll equals the height measured before it, the
loop returns immediately — with the items collected before this iteration or
the items collected through this iteration's scan — no matter how much fuel
remains, even when fewer than the requested maximum have been collected. -/
theorem stall_terminates (parseTs : String → Option Int) (rounds : Nat → Round)
    (maxTweets fuel i lastHeight : Nat) (st : List (String × Int) × List String)
    (hstall : (rounds i).heightAfterScroll = lastHeight) :
    ∃ out, scrapeLoop parseTs rounds maxTweets (fuel + 1) i lastHeight st = some out ∧
      (out = st.1 ∨ out = (collectBlocks parseTs maxTweets (rounds i).blocks st).1) := by
  simp only [scrapeLoop]
  by_cases h1 : maxTweets ≤ st.1.length
  · exact ⟨st.1, by rw [if_pos h1], Or.inl rfl⟩
  · by_cases h2 : maxTweets ≤ (collectBlocks parseTs maxTweets (rounds i).blocks st).1.length
    · exact ⟨_, by rw [if_neg h1, if_pos h2], Or.inr rfl⟩
    · exact ⟨_, by rw [if_neg h1, if_neg h2, if_pos hstall], Or.inr rfl⟩

/-- C8 witness: a loop iteration whose scroll leaves the page height at 7 (the
height it already had) returns at once with the items collected so far. -/
theorem stall_terminates_witness :
    ∃ out, scrapeLoop (fun _ => none) (fun _ => ⟨[], 7⟩) 20 1 0 7 ([], []) = some out ∧
      (out = ([] : List (String × Int)) ∨
        out = (collectBlocks (fun _ => none) 20 (Round.mk [] 7).blocks ([], [])).1) :=
  stall_terminates (fun _ => none) (fun _ => ⟨[], 7⟩) 20 0 0 7 ([], []) rfl

/-- C7: auth-challenge failure.  Whenever the credential file exists and parses,
navigation succeeds, and the resolved URL contains the substring `"login"`,
`scrape_tweets` fails with `AuthChallenge`, writes exactly one HTML snapshot and
exactly one screenshot (both named by the username), closes the session before
failing, and returns no items. -/
theorem auth_challenge_diagnostics (env : ScrapeEnv) (username : String) (maxTweets : Nat)
    (d : Json) (rewritten : Bool)
    (hfile : env.authFileExists = true)
    (hauth : normalizeAuth env.authFileData = .ok (d, rewritten))
    (hnav : env.nav1Ok = true ∨ env.nav2Ok = true)
    (hlogin : containsSubstr env.finalUrl "login" = true) :
    ∃ evs, scrape_tweets env username maxTweets = some (.error .authChallenge, evs) ∧
      htmlWrites evs = [Ev.writeHtml (username ++ "_redirect.html")] ∧
      screenshotWrites evs = [Ev.writeScreenshot (username ++ "_redirect.png")] ∧
      Ev.closeBrowser ∈ evs := by
  have hnav' : ¬(env.nav1Ok = false ∧ env.nav2Ok = false) := by
    rcases hnav with h | h <;> simp [h]
  refine ⟨authChallengeEvents rewritten username, ?_, ?_, ?_, ?_⟩
  · rw [scrape_tweets, if_neg (by simp [hfile]), hauth]
    simp only []
    rw [if_neg hnav', if_pos (by simp [hlogin])]
    rfl
  · cases rewritten <;> simp [authChallengeEvents, htmlWrites]
  · cases rewritten <;> simp [authChallengeEvents, screenshotWrites]
  · simp [authChallengeEvents]

/-- C7 witness: with a resolved URL of `"https://x.com/login?redirect=1"`, the
call fails with `AuthChallenge`, writing exactly the two diagnostic files for
`"bob"` and closing the browser. -/
theorem auth_challenge_witness :
    ∃ evs, scrape_tweets loginEnv "bob" 20 = some (.error .authChallenge, evs) ∧
      htmlWrites evs = [Ev.writeHtml ("bob" ++ "_redirect.html")] ∧
      screenshotWrites evs = [Ev.writeScreenshot ("bob" ++ "_redirect.png")] ∧
      Ev.closeBrowser ∈ evs :=
  auth_challenge_diagnostics loginEnv "bob" 20 (.obj [("cookies", .arr [])]) false rfl rfl
    (Or.inl rfl) (by rfl)

/-- C9: session release on every exit path.  For every execution of
`scrape_tweets` that opens a browser session, the trace contains a session
release — the explicit `browser.close()` or the `async with async_playwright()`
exit — whatever the outcome: normal loop completion, the `AuthChallenge`
branch, the `NoContentFound` branch, or a navigation-retry failure. -/
theorem session_always_released (env : ScrapeEnv) (username : String) (maxTweets : Nat)
    (res : Except ScrapeError (List (String × Int))) (evs : List Ev)
    (h : scrape_tweets env username maxTweets = some (res, evs))
    (hopen : Ev.openSession ∈ evs) : sessionReleased evs := by
  rw [scrape_tweets] at h
  split at h
  · obtain ⟨-, rfl⟩ : _ ∧ ([] : List Ev) = evs := by simpa using h
    simp at hopen
  · split at h
    · obtain ⟨-, rfl⟩ : _ ∧ ([] : List Ev) = evs := by simpa using h
      simp at hopen
    · simp only [] at h
      split at h
      · obtain ⟨-, rfl⟩ := by simpa using h
        right; simp
      · split at h
        · obtain ⟨-, rfl⟩ := by simpa using h
          right; simp
        · split at h
          · obtain ⟨-, rfl⟩ := by simpa using h
            right; simp
          · split at h
            · simp at h
            · obtain ⟨-, rfl⟩ := by simpa using h
              right; simp

/-- C9 witness: a successful run's trace releases the session. -/
theorem session_always_released_witness :
    sessionReleased [Ev.openSession, Ev.closeBrowser, Ev.stopPlaywright] :=
  session_always_released sampleEnv "user" 5 (.ok [("hello", 0), ("world", 0)])
    [Ev.openSession, Ev.closeBrowser, Ev.stopPlaywright] (by rfl) (by decide)

end Scraper
